import Mathlib

/-!
Verification development for the Choices widget
(src/assets/scripts/src/choices.js).

The data store and its reducers live in actions/index.js and store/index.js,
which are not among the provided sources; those reducers are modelled from the
specification (section 4.1) and are marked as such in their doc comments.
Everything else is translated from src/assets/scripts/src/choices.js.

DOM-only effects (class toggling, template rendering, focus) are out of scope;
where a method reads rendered DOM state (itemList.children, the passed
element's value attribute) the embedding substitutes the store-derived value
that the render pass writes there, as documented at the point of use.
-/

namespace ChoicesWidget

/-- An entry of the item log (spec section 3). -/
structure Item where
  id : Nat
  value : String
  label : String
  active : Bool
  selected : Bool
  choiceId : Int
deriving Repr, DecidableEq

/-- An entry of the choice log (spec section 3). -/
structure Choice where
  id : Nat
  value : String
  label : String
  groupId : Int
  selected : Bool
  disabled : Bool
  active : Bool
deriving Repr, DecidableEq

/-- An entry of the group log (spec section 3). -/
structure Group where
  id : Nat
  value : String
  active : Bool
  disabled : Bool
deriving Repr, DecidableEq

/-- The store state: items, choices and groups logs. -/
structure State where
  items : List Item := []
  choices : List Choice := []
  groups : List Group := []
deriving Repr, DecidableEq

/-- The initial (empty) store state. -/
def initialState : State := {}

/-- Element types the widget can be constructed on. -/
inductive ElementType
  | text
  | selectOne
  | selectMultiple
deriving Repr, DecidableEq

/-- The recognized configuration options that influence store behaviour,
with the defaults of the constructor of choices.js. `regexFilter` models a
configured regular expression by its test function; `none` is the default
null. -/
structure Config where
  elementType : ElementType := ElementType.text
  maxItemCount : Int := -1
  addItems : Bool := true
  removeItems : Bool := true
  editItems : Bool := false
  duplicateItems : Bool := true
  delimiter : String := ","
  regexFilter : Option (String → Bool) := none
  prependValue : Option String := none
  appendValue : Option String := none

/-- Modelled from the spec: reducer "addItem(value, label, id, choiceId):
appends new Item with active=true, selected=false" (the actions/store sources
are not provided). -/
def addItem (value label : String) (id : Nat) (choiceId : Int) (s : State) : State :=
  { s with items := s.items ++
      [{ id := id, value := value, label := label, active := true,
         selected := false, choiceId := choiceId }] }

/-- Sets `active := false` on an item when its id matches. -/
def deactivateItem (i : Nat) (it : Item) : Item :=
  if it.id = i then { it with active := false } else it

/-- Modelled from the spec: reducer "removeItem(id, choiceId): sets
active=false on the item with a matching id; if choiceId references a choice,
that choice's selected flag is cleared so it becomes choosable again". -/
def removeItem (id : Nat) (choiceId : Int) (s : State) : State :=
  { s with
    items := s.items.map (deactivateItem id),
    choices := s.choices.map
      (fun c => if (c.id : Int) = choiceId then { c with selected := false } else c) }

/-- Modelled from the spec: reducer "selectItem(id, selected): sets selected
flag on matching active item". -/
def selectItem (id : Nat) (sel : Bool) (s : State) : State :=
  { s with items :=
      s.items.map fun it =>
        if it.id = id ∧ it.active then { it with selected := sel } else it }

/-- Modelled from the spec: reducer "activateChoices(resetSelection?):
reactivates all choices (used when search is cleared); optionally clears
selection state". -/
def activateChoices (reset : Bool) (s : State) : State :=
  { s with choices :=
      s.choices.map fun c =>
        { c with active := true,
                 selected := if reset then false else c.selected } }

/-- Store getter getItemsFilteredByActive: only the active entries of the
item log. -/
def getItemsFilteredByActive (s : State) : List Item :=
  s.items.filter (fun it => it.active)

/-- JS String.prototype.trim: strip leading and trailing whitespace. -/
def jsTrim (s : String) : String :=
  ⟨((s.data.dropWhile Char.isWhitespace).reverse.dropWhile Char.isWhitespace).reverse⟩

/-- JS Array.prototype.join with a separator string, as used by renderItems
to serialize the active item values into the passed element's value
attribute. -/
def joinVals (delim : String) : List String → String
  | [] => ""
  | [v] => v
  | v :: rest => v ++ delim ++ joinVals delim rest

/-- Return value of a public method: the class instance (`return this`) or
undefined (a bare `return;` or falling off the end). -/
inductive JsRet
  | classInstance
  | undef
deriving Repr, DecidableEq

/-- Result of running `_removeItem`: the store state afterwards, the JS
return value, whether the configured callback was invoked, and the console
diagnostics emitted. -/
structure RemoveItemResult where
  state : State
  ret : JsRet
  callbackInvoked : Bool
  logs : List String
deriving Repr, DecidableEq

/-- `_removeItem(item, callback)` of choices.js. `item` is `none` when a
non-object argument is passed; `callback` is `none` when the configured
callbackOnRemoveItem is falsy, and `some isFn` records whether it is a
function. In the source, the dispatch of the removeItem action precedes the
callback block; inside that block the `if(!isType(..))` guards only the
console.error on the same line, and the `return;` that follows it is a
separate statement that runs unconditionally, so the callback call on the
next line is unreachable. -/
def removeItemMethod (s : State) (item : Option Item) (callback : Option Bool) :
    RemoveItemResult :=
  match item with
  | none =>
    { state := s, ret := JsRet.undef, callbackInvoked := false,
      logs := ["removeItem: No item object was passed to be removed"] }
  | some it =>
    let s1 := removeItem it.id it.choiceId s
    match callback with
    | some isFn =>
      { state := s1, ret := JsRet.undef, callbackInvoked := false,
        logs := if isFn then [] else ["callbackOnRemoveItem: Callback is not a function"] }
    | none =>
      { state := s1, ret := JsRet.classInstance, callbackInvoked := false, logs := [] }

/-- The store effect of `this._removeItem(item)` on a genuine item object:
the dispatched removeItem action. -/
def removeItemDispatch (it : Item) (s : State) : State :=
  removeItem it.id it.choiceId s

/-- Result of a public method that only returns and logs. -/
structure MethodResult where
  state : State
  ret : JsRet
  logs : List String
deriving Repr, DecidableEq

/-- `removeItemsByValue(value)` of choices.js. The argument-validation `if`
controls only the console.error call written on the same line; the `return;`
after it is a separate statement and runs unconditionally, before the store
is consulted, so the loop over active items below it is unreachable.
`value` is `none` for a non-string argument. -/
def removeItemsByValue (s : State) (value : Option String) : MethodResult :=
  let logs := match value with
    | none => ["removeItemsByValue: No value was passed to be removed"]
    | some v =>
      if v = "" then ["removeItemsByValue: No value was passed to be removed"] else []
  { state := s, ret := JsRet.undef, logs := logs }

/-- `removeActiveItems(excludedId)` of choices.js: iterate over a snapshot of
the active items, dispatching a removal for each one whose id differs from
the excluded id. -/
def removeActiveItems (excludedId : Nat) (s : State) : State :=
  (getItemsFilteredByActive s).foldl
    (fun st it => if it.active && excludedId != it.id then removeItemDispatch it st else st) s

/-- `removeSelectedItems()` of choices.js: iterate over a snapshot of the
active items, dispatching a removal for each selected one. -/
def removeSelectedItems (s : State) : State :=
  (getItemsFilteredByActive s).foldl
    (fun st it => if it.selected && it.active then removeItemDispatch it st else st) s

/-- JS `label || passedValue`: the label argument when it is a non-empty
string, the fallback otherwise. -/
def jsStringOr (a : Option String) (b : String) : String :=
  match a with
  | some v => if v = "" then b else v
  | none => b

/-- `_addItem(value, label, choiceId)` of choices.js: trim the value, apply
the configured prepended and appended values, assign id items.length + 1,
dispatch addItem, and on a select-one element deactivate every other active
item via removeActiveItems. The add callback has no store effect and is
omitted. -/
def addItemMethod (cfg : Config) (value : String) (label : Option String)
    (choiceId : Int) (s : State) : State :=
  let passedValue0 := jsTrim value
  let passedLabel := jsStringOr label passedValue0
  let passedOptionId : Int := if choiceId = 0 then -1 else choiceId
  let passedValue1 := match cfg.prependValue with
    | some p => if p = "" then passedValue0 else p ++ passedValue0
    | none => passedValue0
  let passedValue := match cfg.appendValue with
    | some a => if a = "" then passedValue1 else passedValue1 ++ a
    | none => passedValue1
  let id := s.items.length + 1
  let s1 := addItem passedValue passedLabel id passedOptionId s
  if cfg.elementType = ElementType.selectOne then removeActiveItems id s1 else s1

/-- `_regexFilter(value)` of choices.js, given the configured expression's
test function: an empty value returns undefined (falsy), otherwise the
regular expression is tested against the value. -/
def regexFilterTest (f : String → Bool) (value : String) : Bool :=
  if value = "" then false else f value

/-- The test function of the concrete regular expression
`new RegExp("^[0-9]+$", "i")`: the anchors make it match exactly the
non-empty all-digit strings, and the i flag is vacuous for digits. -/
def regexDigits (s : String) : Bool :=
  !s.data.isEmpty && s.data.all (fun c => c.isDigit)

/-- The canUpdate flag of `_handleEnter`. `itemList.children` holds one
rendered element per active item, and the passed element's value attribute
holds the delimiter-joined active item values, both kept in sync by the
render pass; the embedding reads both off the store state. -/
def enterCanUpdate (cfg : Config) (value : String) (s : State) : Bool :=
  let activeItems := getItemsFilteredByActive s
  let itemListCount : Int := (activeItems.length : Int)
  let passedElementValue := joinVals cfg.delimiter (activeItems.map (fun it => it.value))
  if cfg.addItems then
    if cfg.maxItemCount ≠ 0 ∧ 0 < cfg.maxItemCount ∧ cfg.maxItemCount ≤ itemListCount then
      false
    else if cfg.duplicateItems = false ∧ passedElementValue ≠ "" then
      !(activeItems.any (fun it => it.value = value))
    else true
  else false

/-- The canAddItem flag of `_handleEnter`: the regular expression test when a
regexFilter is configured. -/
def enterCanAddItem (cfg : Config) (value : String) : Bool :=
  match cfg.regexFilter with
  | some f => regexFilterTest f value
  | none => true

/-- `_handleEnter(activeItems, value)` of choices.js, as a transformer of the
store state. Dropdown toggling and input clearing have no store effect and
are omitted. -/
def handleEnter (cfg : Config) (value : String) (s : State) : State :=
  if enterCanUpdate cfg value s then
    if enterCanAddItem cfg value then addItemMethod cfg value none (-1) s else s
  else s

/-- `_handleBackspace(activeItems)` of choices.js: the new store state and
the value written back into the input field, if any. The edit branch needs
editItems, no selected item and a last item; otherwise the last item is
selected when none is, and all selected items are removed. The whole handler
is guarded by the removeItems option. -/
def handleBackspace (cfg : Config) (s : State) : State × Option String :=
  if cfg.removeItems then
    let activeItems := getItemsFilteredByActive s
    let lastItem := activeItems.getLast?
    let hasSelectedItems := activeItems.any (fun it => it.selected)
    match lastItem with
    | some last =>
      if cfg.editItems ∧ hasSelectedItems = false then
        (removeItemDispatch last s, some last.value)
      else
        let s1 := if hasSelectedItems = false then selectItem last.id true s else s
        (removeSelectedItems s1, none)
    | none =>
      -- with no active items the edit branch is unavailable and
      -- this.selectItem(undefined) returns without dispatching
      (removeSelectedItems s, none)
  else (s, none)

/-- The dropdown notice assembled by `_onKeyUp` for a text element with a
non-empty input value. -/
inductive DropdownNotice
  | limitReached (n : Int)
  | duplicateBlocked
  | addPrompt (v : String)
  | noNotice
deriving Repr, DecidableEq

/-- The notice branch of `_onKeyUp` in choices.js: with a non-empty input
value, reaching the max item count takes precedence, then the duplicate
check, then the plain add prompt. -/
def onKeyUpNotice (cfg : Config) (inputValue : String) (s : State) : DropdownNotice :=
  if inputValue ≠ "" then
    let activeItems := getItemsFilteredByActive s
    let isUnique := !(activeItems.any (fun it => it.value = inputValue))
    if cfg.maxItemCount ≠ 0 ∧ 0 < cfg.maxItemCount ∧
        cfg.maxItemCount ≤ (activeItems.length : Int) then
      DropdownNotice.limitReached cfg.maxItemCount
    else if cfg.duplicateItems = false ∧ isUnique = false then
      DropdownNotice.duplicateBlocked
    else
      DropdownNotice.addPrompt inputValue
  else DropdownNotice.noNotice

/-- The store action dispatched by the search branch of `_onKeyUp`. -/
inductive SearchAction
  | filterAction (needle : String)
  | activateAction
  | noAction
deriving Repr, DecidableEq

/-- The search branch of `_onKeyUp` in choices.js: when search is enabled and
the input is focused, a non-empty input over a non-empty choice log with an
alphanumeric key runs handleFilter, which dispatches filterChoices only when
the trimmed value has length at least 1 and differs from the previously
searched trimmed value plus a trailing space; otherwise, when some choice is
inactive, activateChoices is dispatched. -/
def onKeyUpSearch (canSearch isFocused keyAlnum : Bool)
    (inputValue currentValue : String) (allChoices : List Choice) : SearchAction :=
  if canSearch ∧ isFocused then
    let hasUnactiveChoices := allChoices.any (fun o => o.active = false)
    if inputValue ≠ "" ∧ allChoices.length ≠ 0 ∧ keyAlnum then
      let newValue := jsTrim inputValue
      let currentTrimmed := jsTrim currentValue
      if 1 ≤ newValue.length ∧ newValue ≠ currentTrimmed ++ " " then
        SearchAction.filterAction newValue
      else SearchAction.noAction
    else if hasUnactiveChoices then SearchAction.activateAction
    else SearchAction.noAction
  else SearchAction.noAction

/-- One frame of the self-rescheduling animateScroll closure of
`_scrollToChoice`: ease toward the end point by a quarter of the remaining
distance, at least 1 unit, in the direction given by `direction`; the scroll
position is modelled as an unclamped rational number. -/
def animateScrollStep (direction : Int) (endPoint pos : ℚ) : ℚ :=
  if 0 < direction then
    let easing := (endPoint - pos) / 4
    let distance := if 1 < easing then easing else 1
    pos + distance
  else
    let easing := (pos - endPoint) / 4
    let distance := if 1 < easing then easing else 1
    pos - distance

/-- Whether animateScroll schedules another frame, judged on the scroll
position after the current frame's assignment. -/
def animateContinue (direction : Int) (endPoint pos : ℚ) : Bool :=
  if 0 < direction then decide (pos < endPoint) else decide (endPoint < pos)

/-- The scroll position after `n` frames of animateScroll. -/
def animateIter (direction : Int) (endPoint : ℚ) : Nat → ℚ → ℚ
  | 0, pos => pos
  | Nat.succ n, pos => animateIter direction endPoint n (animateScrollStep direction endPoint pos)

/-- An item-log operation performed through the widget: the paths of
choices.js that add to, soft-delete from, or flag entries of the item log.
Removal and selection operate on an existing entry of the log, designated by
its position. -/
inductive WidgetOp
  | addOp (value : String) (label : Option String) (choiceId : Int)
  | enterOp (value : String)
  | backspaceOp
  | removeOp (idx : Nat)
  | removeActiveOp (excludedId : Nat)
  | removeSelectedOp
  | selectOp (idx : Nat) (sel : Bool)

/-- Apply one widget operation to the store state. -/
def applyOp (cfg : Config) (s : State) : WidgetOp → State
  | WidgetOp.addOp v lab cid => addItemMethod cfg v lab cid s
  | WidgetOp.enterOp v => handleEnter cfg v s
  | WidgetOp.backspaceOp => (handleBackspace cfg s).1
  | WidgetOp.removeOp i =>
    match s.items[i]? with
    | some it => removeItemDispatch it s
    | none => s
  | WidgetOp.removeActiveOp ex => removeActiveItems ex s
  | WidgetOp.removeSelectedOp => removeSelectedItems s
  | WidgetOp.selectOp i sel =>
    match s.items[i]? with
    | some it => selectItem it.id sel s
    | none => s

/-- The store state after a sequence of widget operations from the initial
state. -/
def runOps (cfg : Config) (ops : List WidgetOp) : State :=
  ops.foldl (applyOp cfg) initialState

/-- The ids of the full item log, in log order. -/
def idsOf (s : State) : List Nat :=
  s.items.map (fun it => it.id)

/-- The id-log invariant maintained by the widget: the item log carries the
ids 1, 2, ..., length in order. -/
def IdLog (s : State) : Prop :=
  idsOf s = List.range' 1 s.items.length

/-- Deactivate an item when its id is among a set of removed ids; the
cumulative effect of a sequence of removeItem dispatches on a log entry. -/
def deactivateIds (ids : List Nat) (it : Item) : Item :=
  if it.id ∈ ids then { it with active := false } else it

theorem deactivateIds_nil (it : Item) : deactivateIds [] it = it := by
  simp [deactivateIds]

theorem deactivateIds_id (ids : List Nat) (it : Item) :
    (deactivateIds ids it).id = it.id := by
  unfold deactivateIds
  split <;> rfl

theorem deactivateItem_id (i : Nat) (it : Item) : (deactivateItem i it).id = it.id := by
  unfold deactivateItem
  split <;> rfl

theorem deactivateItem_eq_single (i : Nat) (it : Item) :
    deactivateItem i it = deactivateIds [i] it := by
  unfold deactivateItem deactivateIds
  simp

theorem deactivateIds_comp (i : Nat) (ids : List Nat) (it : Item) :
    deactivateIds ids (deactivateItem i it) = deactivateIds (i :: ids) it := by
  unfold deactivateItem deactivateIds
  by_cases h : it.id = i
  · simp [h]
  · simp [h]

theorem removeItemDispatch_items (it : Item) (s : State) :
    (removeItemDispatch it s).items = s.items.map (deactivateItem it.id) := rfl

/-- The items after folding conditional removeItem dispatches over a snapshot
list: every id that met the condition is deactivated. -/
theorem foldl_removeIf_items (c : Item → Bool) :
    ∀ (l : List Item) (s0 : State),
      (l.foldl (fun st it => if c it then removeItemDispatch it st else st) s0).items
        = s0.items.map (deactivateIds ((l.filter c).map (fun it => it.id)))
  | [], s0 => by
    simp only [List.foldl_nil, List.filter_nil, List.map_nil]
    rw [List.map_id'' deactivateIds_nil]
  | a :: l, s0 => by
    rw [List.foldl_cons]
    by_cases h : c a
    · rw [if_pos h, foldl_removeIf_items c l (removeItemDispatch a s0),
        removeItemDispatch_items, List.map_map, List.filter_cons_of_pos h]
      refine List.map_congr_left fun x _ => ?_
      simp only [Function.comp_apply, List.map_cons]
      exact deactivateIds_comp a.id _ x
    · rw [if_neg h, foldl_removeIf_items c l s0, List.filter_cons_of_neg h]

/-- Filtering for active entries after a batch deactivation keeps exactly the
previously active entries whose id escaped removal, unchanged. -/
theorem filter_active_map_deactivateIds (ids : List Nat) :
    ∀ l : List Item,
      (l.map (deactivateIds ids)).filter (fun it => it.active)
        = l.filter (fun it => it.active && !(decide (it.id ∈ ids)))
  | [] => rfl
  | a :: l => by
    by_cases h : a.id ∈ ids
    · have ha : deactivateIds ids a = { a with active := false } := by
        simp [deactivateIds, h]
      simp only [List.map_cons, ha, List.filter_cons]
      simp [h, filter_active_map_deactivateIds ids l]
    · have ha : deactivateIds ids a = a := by
        simp [deactivateIds, h]
      simp only [List.map_cons, ha, List.filter_cons]
      by_cases hact : a.active
      · simp [hact, h, filter_active_map_deactivateIds ids l]
      · simp [hact, filter_active_map_deactivateIds ids l]

theorem map_id_of_preserve {f : Item → Item} (hf : ∀ it, (f it).id = it.id)
    (l : List Item) :
    (l.map f).map (fun it => it.id) = l.map (fun it => it.id) := by
  rw [List.map_map]
  exact List.map_congr_left fun a _ => hf a

theorem idsOf_removeItem (i : Nat) (cid : Int) (s : State) :
    idsOf (removeItem i cid s) = idsOf s :=
  map_id_of_preserve (deactivateItem_id i) s.items

theorem idsOf_removeItemDispatch (it : Item) (s : State) :
    idsOf (removeItemDispatch it s) = idsOf s :=
  idsOf_removeItem it.id it.choiceId s

theorem idsOf_selectItem (i : Nat) (sel : Bool) (s : State) :
    idsOf (selectItem i sel s) = idsOf s := by
  refine map_id_of_preserve (fun it => ?_) s.items
  dsimp only
  split <;> rfl

theorem idsOf_foldl_removeIf (c : Item → Bool) (l : List Item) (s0 : State) :
    idsOf (l.foldl (fun st it => if c it then removeItemDispatch it st else st) s0)
      = idsOf s0 := by
  unfold idsOf
  rw [foldl_removeIf_items c l s0]
  exact map_id_of_preserve (deactivateIds_id _) s0.items

theorem idsOf_removeActiveItems (ex : Nat) (s : State) :
    idsOf (removeActiveItems ex s) = idsOf s :=
  idsOf_foldl_removeIf (fun it => it.active && ex != it.id) (getItemsFilteredByActive s) s

theorem idsOf_removeSelectedItems (s : State) :
    idsOf (removeSelectedItems s) = idsOf s :=
  idsOf_foldl_removeIf (fun it => it.selected && it.active) (getItemsFilteredByActive s) s

theorem length_idsOf (s : State) : (idsOf s).length = s.items.length :=
  List.length_map s.items _

theorem IdLog_of_idsOf_eq {s' s : State} (h : idsOf s' = idsOf s) :
    IdLog s → IdLog s' := by
  intro hlog
  have hlen : s'.items.length = s.items.length := by
    rw [← length_idsOf, ← length_idsOf, h]
  unfold IdLog
  rw [h, hlen]
  exact hlog

theorem idsOf_addItem (v lab : String) (i : Nat) (cid : Int) (s : State) :
    idsOf (addItem v lab i cid s) = idsOf s ++ [i] := by
  unfold idsOf addItem
  simp

theorem idsOf_addItemMethod (cfg : Config) (v : String) (lab : Option String)
    (cid : Int) (s : State) :
    idsOf (addItemMethod cfg v lab cid s) = idsOf s ++ [s.items.length + 1] := by
  unfold addItemMethod
  dsimp only
  split
  · rw [idsOf_removeActiveItems, idsOf_addItem]
  · rw [idsOf_addItem]

theorem IdLog_initialState : IdLog initialState := rfl

theorem IdLog_addItemMethod (cfg : Config) (v : String) (lab : Option String)
    (cid : Int) {s : State} (h : IdLog s) :
    IdLog (addItemMethod cfg v lab cid s) := by
  have hids := idsOf_addItemMethod cfg v lab cid s
  have hlen : (addItemMethod cfg v lab cid s).items.length = s.items.length + 1 := by
    rw [← length_idsOf, hids, List.length_append, length_idsOf]
    rfl
  unfold IdLog
  rw [hids, hlen, h, List.range'_1_concat]
  unfold IdLog at h
  rw [Nat.add_comm 1 s.items.length]

theorem IdLog_handleEnter (cfg : Config) (v : String) {s : State} (h : IdLog s) :
    IdLog (handleEnter cfg v s) := by
  unfold handleEnter
  split
  · split
    · exact IdLog_addItemMethod cfg v none (-1) h
    · exact h
  · exact h

theorem IdLog_removeSelectedItems {s : State} (h : IdLog s) :
    IdLog (removeSelectedItems s) :=
  IdLog_of_idsOf_eq (idsOf_removeSelectedItems s) h

theorem IdLog_handleBackspace (cfg : Config) {s : State} (h : IdLog s) :
    IdLog (handleBackspace cfg s).1 := by
  unfold handleBackspace
  dsimp only
  split
  · split
    · split
      · exact IdLog_of_idsOf_eq (idsOf_removeItemDispatch _ s) h
      · dsimp only
        split
        · exact IdLog_of_idsOf_eq
            ((idsOf_removeSelectedItems _).trans (idsOf_selectItem _ true s)) h
        · exact IdLog_removeSelectedItems h
    · exact IdLog_removeSelectedItems h
  · exact h

theorem IdLog_applyOp (cfg : Config) {s : State} (op : WidgetOp) (h : IdLog s) :
    IdLog (applyOp cfg s op) := by
  cases op with
  | addOp v lab cid => exact IdLog_addItemMethod cfg v lab cid h
  | enterOp v => exact IdLog_handleEnter cfg v h
  | backspaceOp => exact IdLog_handleBackspace cfg h
  | removeOp i =>
    simp only [applyOp]
    cases hit : s.items[i]? with
    | some it => exact IdLog_of_idsOf_eq (idsOf_removeItemDispatch it s) h
    | none => exact h
  | removeActiveOp ex => exact IdLog_of_idsOf_eq (idsOf_removeActiveItems ex s) h
  | removeSelectedOp => exact IdLog_removeSelectedItems h
  | selectOp i sel =>
    simp only [applyOp]
    cases hit : s.items[i]? with
    | some it => exact IdLog_of_idsOf_eq (idsOf_selectItem it.id sel s) h
    | none => exact h

theorem IdLog_foldl (cfg : Config) :
    ∀ (ops : List WidgetOp) {s : State}, IdLog s → IdLog (ops.foldl (applyOp cfg) s)
  | [], _, h => h
  | op :: ops, s, h => by
    rw [List.foldl_cons]
    exact IdLog_foldl cfg ops (IdLog_applyOp cfg op h)

theorem IdLog_runOps (cfg : Config) (ops : List WidgetOp) : IdLog (runOps cfg ops) :=
  IdLog_foldl cfg ops IdLog_initialState

theorem pairwise_idsOf {s : State} (h : IdLog s) : (idsOf s).Pairwise (· < ·) := by
  rw [h]
  exact List.pairwise_lt_range' 1 s.items.length

theorem pairwise_activeIds {s : State} (h : IdLog s) :
    ((getItemsFilteredByActive s).map (fun it => it.id)).Pairwise (· < ·) := by
  refine List.Pairwise.sublist ?_ (pairwise_idsOf h)
  exact (List.filter_sublist s.items).map _

theorem id_lt_of_mem {s : State} (h : IdLog s) {it : Item} (hm : it ∈ s.items) :
    it.id < s.items.length + 1 := by
  have : it.id ∈ idsOf s := List.mem_map_of_mem _ hm
  rw [h] at this
  have := List.mem_range'_1.mp this
  omega

theorem animateScrollStep_ge {direction : Int} (hd : 0 < direction) (endPoint p : ℚ) :
    p + 1 ≤ animateScrollStep direction endPoint p := by
  unfold animateScrollStep
  rw [if_pos hd]
  dsimp only
  split
  · linarith
  · linarith

theorem animateScrollStep_le {direction : Int} (hd : ¬0 < direction) (endPoint p : ℚ) :
    animateScrollStep direction endPoint p ≤ p - 1 := by
  unfold animateScrollStep
  rw [if_neg hd]
  dsimp only
  split
  · linarith
  · linarith

theorem animateIter_ge {direction : Int} (hd : 0 < direction) (endPoint : ℚ) :
    ∀ (n : Nat) (p : ℚ), p + n ≤ animateIter direction endPoint n p
  | 0, p => by simp [animateIter]
  | n + 1, p => by
    have h1 := animateScrollStep_ge hd endPoint p
    have h2 := animateIter_ge hd endPoint n (animateScrollStep direction endPoint p)
    unfold animateIter
    push_cast
    linarith

theorem animateIter_le {direction : Int} (hd : ¬0 < direction) (endPoint : ℚ) :
    ∀ (n : Nat) (p : ℚ), animateIter direction endPoint n p ≤ p - n
  | 0, p => by simp [animateIter]
  | n + 1, p => by
    have h1 := animateScrollStep_le hd endPoint p
    have h2 := animateIter_le hd endPoint n (animateScrollStep direction endPoint p)
    unfold animateIter
    push_cast
    linarith

theorem ceil_toNat_ge (x : ℚ) : x ≤ ((Int.ceil x).toNat : ℚ) := by
  have h1 : x ≤ (Int.ceil x : ℚ) := Int.le_ceil x
  have h2 : (Int.ceil x : ℤ) ≤ ((Int.ceil x).toNat : ℤ) := Int.self_le_toNat _
  have h2q : ((Int.ceil x : ℤ) : ℚ) ≤ (((Int.ceil x).toNat : ℤ) : ℚ) := by
    exact_mod_cast h2
  push_cast at h2q
  linarith

/-- C1: for every sequence of item additions and removals performed through
the widget, the ids of the full (active plus inactive) item log are pairwise
distinct and strictly increasing in order of addition. -/
theorem addRemove_ids_unique_monotone (cfg : Config) (ops : List WidgetOp) :
    (idsOf (runOps cfg ops)).Pairwise (· < ·) ∧ (idsOf (runOps cfg ops)).Nodup :=
  ⟨pairwise_idsOf (IdLog_runOps cfg ops),
   (pairwise_idsOf (IdLog_runOps cfg ops)).imp fun h => Nat.ne_of_lt h⟩

/-- C8: each frame of the animateScroll step function moves the scroll
position by at least 1 unit in the single direction fixed by its direction
argument, and consequently, for every starting position and end point, the
animation stops rescheduling after finitely many frames (the scroll position
being modelled as an unclamped rational). -/
theorem animateScroll_moves_and_terminates (direction : Int) (endPoint start : ℚ) :
    (0 < direction → ∀ p : ℚ, p + 1 ≤ animateScrollStep direction endPoint p)
    ∧ (¬0 < direction → ∀ p : ℚ, animateScrollStep direction endPoint p ≤ p - 1)
    ∧ ∃ n : Nat,
        animateContinue direction endPoint (animateIter direction endPoint n start) = false := by
  refine ⟨fun hd p => animateScrollStep_ge hd endPoint p,
          fun hd p => animateScrollStep_le hd endPoint p, ?_⟩
  by_cases hd : 0 < direction
  · refine ⟨(Int.ceil (endPoint - start)).toNat, ?_⟩
    have hge := animateIter_ge hd endPoint (Int.ceil (endPoint - start)).toNat start
    have hc := ceil_toNat_ge (endPoint - start)
    unfold animateContinue
    rw [if_pos hd]
    simp only [decide_eq_false_iff_not, not_lt]
    linarith
  · refine ⟨(Int.ceil (start - endPoint)).toNat, ?_⟩
    have hle := animateIter_le hd endPoint (Int.ceil (start - endPoint)).toNat start
    have hc := ceil_toNat_ge (start - endPoint)
    unfold animateContinue
    rw [if_neg hd]
    simp only [decide_eq_false_iff_not, not_lt]
    linarith

/-- C8 witness: with direction 1, end point 10 and start 0, the step from 0
advances by at least 1 and the animation reaches a non-continuing frame. -/
theorem animateScroll_witness :
    ((0 : ℚ) + 1 ≤ animateScrollStep 1 10 0)
    ∧ ∃ n : Nat, animateContinue 1 10 (animateIter 1 10 n 0) = false :=
  ⟨(animateScroll_moves_and_terminates 1 10 0).1 (by decide) 0,
   (animateScroll_moves_and_terminates 1 10 0).2.2⟩

/-- C9: removeItemsByValue returns before examining the item store — for
every store state and every argument, including valid non-empty strings, the
state is untouched and the JS return value is undefined, never the class
instance. -/
theorem removeItemsByValue_never_removes (s : State) (value : Option String) :
    (removeItemsByValue s value).state = s
    ∧ (removeItemsByValue s value).ret = JsRet.undef :=
  ⟨rfl, rfl⟩

/-- C10: for every item object passed to _removeItem with a configured
callback, the removeItem action is dispatched to the store (the soft removal
takes effect), but the callback is never invoked and the method returns
undefined. -/
theorem removeItem_dispatches_but_never_calls_back (s : State) (it : Item) (isFn : Bool) :
    (removeItemMethod s (some it) (some isFn)).state = removeItem it.id it.choiceId s
    ∧ (removeItemMethod s (some it) (some isFn)).state.items
        = s.items.map (deactivateItem it.id)
    ∧ (removeItemMethod s (some it) (some isFn)).callbackInvoked = false
    ∧ (removeItemMethod s (some it) (some isFn)).ret = JsRet.undef :=
  ⟨rfl, rfl, rfl, rfl⟩

/-- C7: a filterChoices search action is dispatched on key-up only when the
trimmed input has length at least 1 and differs from the previously searched
trimmed text plus a trailing space; when the input no longer meets the
search trigger while some choice is inactive, activateChoices is dispatched,
and that action reactivates every choice. -/
theorem keyUp_search_guard_and_reset (canSearch isFocused keyAlnum : Bool)
    (inputValue currentValue : String) (allChoices : List Choice) (needle : String) :
    (onKeyUpSearch canSearch isFocused keyAlnum inputValue currentValue allChoices
        = SearchAction.filterAction needle →
      1 ≤ (jsTrim inputValue).length ∧ jsTrim inputValue ≠ jsTrim currentValue ++ " "
        ∧ needle = jsTrim inputValue)
    ∧ (canSearch = true → isFocused = true →
        ¬(inputValue ≠ "" ∧ allChoices.length ≠ 0 ∧ keyAlnum = true) →
        (allChoices.any fun o => o.active = false) = true →
        onKeyUpSearch canSearch isFocused keyAlnum inputValue currentValue allChoices
          = SearchAction.activateAction)
    ∧ (∀ (s : State) (b : Bool), ∀ c ∈ (activateChoices b s).choices, c.active = true) := by
  refine ⟨?_, ?_, ?_⟩
  · intro h
    unfold onKeyUpSearch at h
    split at h
    · dsimp only at h
      split at h
      · split at h
        · next hguard =>
          injection h with hne
          exact ⟨hguard.1, hguard.2, hne.symm⟩
        · exact absurd h (by simp)
      · split at h
        · exact absurd h (by simp)
        · exact absurd h (by simp)
    · exact absurd h (by simp)
  · intro hcs hf hng hun
    unfold onKeyUpSearch
    rw [if_pos ⟨hcs, hf⟩, if_neg hng, if_pos hun]
  · intro s b c hc
    unfold activateChoices at hc
    simp only [List.mem_map] at hc
    obtain ⟨a, _, rfl⟩ := hc
    rfl

/-- C7 witness: a dispatched filter obeys the guard at a concrete input, and
a cleared input with an inactive choice dispatches the reactivation. -/
theorem keyUp_search_witness :
    (1 ≤ (jsTrim "ab").length ∧ jsTrim "ab" ≠ jsTrim "" ++ " " ∧ jsTrim "ab" = jsTrim "ab")
    ∧ onKeyUpSearch true true true "" "ab"
        [{ id := 1, value := "x", label := "x", groupId := -1,
           selected := false, disabled := false, active := false }]
        = SearchAction.activateAction :=
  ⟨(keyUp_search_guard_and_reset true true true "ab" ""
      [{ id := 1, value := "x", label := "x", groupId := -1,
         selected := false, disabled := false, active := false }] (jsTrim "ab")).1 (by decide),
   (keyUp_search_guard_and_reset true true true "" "ab"
      [{ id := 1, value := "x", label := "x", groupId := -1,
         selected := false, disabled := false, active := false }] "x").2.1
     rfl rfl (by simp) (by decide)⟩

theorem string_length_pos {v : String} (h : v ≠ "") : 0 < v.length := by
  cases v with
  | mk data =>
    cases data with
    | nil => exact absurd rfl h
    | cons c cs => simp [String.length]

theorem joinVals_length_pos (d : String) :
    ∀ l : List String, ∀ v ∈ l, v ≠ "" → 0 < (joinVals d l).length
  | [], v, hv, _ => absurd hv (List.not_mem_nil v)
  | [a], v, hv, hne => by
    rw [List.mem_singleton] at hv
    subst hv
    exact string_length_pos hne
  | a :: b :: l, v, hv, hne => by
    have hj : joinVals d (a :: b :: l) = a ++ d ++ joinVals d (b :: l) := rfl
    rw [hj, String.length_append, String.length_append]
    rcases List.mem_cons.mp hv with rfl | hv2
    · have := string_length_pos hne
      omega
    · have := joinVals_length_pos d (b :: l) v hv2 hne
      omega

theorem joinVals_ne_empty {d : String} {l : List String} {v : String}
    (hv : v ∈ l) (hne : v ≠ "") : joinVals d l ≠ "" := by
  intro h
  have hpos := joinVals_length_pos d l v hv hne
  rw [h] at hpos
  simp at hpos

theorem active_addItemMethod_not_selectOne (cfg : Config) (v : String)
    (lab : Option String) (cid : Int) (s : State)
    (h : ¬cfg.elementType = ElementType.selectOne) :
    (getItemsFilteredByActive (addItemMethod cfg v lab cid s)).length
      = (getItemsFilteredByActive s).length + 1 := by
  unfold addItemMethod
  dsimp only
  rw [if_neg h]
  unfold addItem getItemsFilteredByActive
  dsimp only
  rw [List.filter_append]
  simp

/-- C3: with duplicateItems configured off and a typed value that equals the
value of some active item, the enter commit leaves the whole store state
unchanged: no new item is created. -/
theorem enter_duplicate_noop (cfg : Config) (s : State) (value : String)
    (hdup : cfg.duplicateItems = false) (hv : value ≠ "")
    (hmem : value ∈ (getItemsFilteredByActive s).map fun it => it.value) :
    handleEnter cfg value s = s := by
  have hjoin :
      joinVals cfg.delimiter ((getItemsFilteredByActive s).map fun it => it.value) ≠ "" :=
    joinVals_ne_empty hmem hv
  have hany : ((getItemsFilteredByActive s).any fun it => it.value = value) = true := by
    rw [List.any_eq_true]
    obtain ⟨it, hit, hval⟩ := List.mem_map.mp hmem
    exact ⟨it, hit, by simp [hval]⟩
  have hcu : enterCanUpdate cfg value s = false := by
    unfold enterCanUpdate
    dsimp only
    by_cases hadd : cfg.addItems = true
    · rw [if_pos hadd]
      split
      · rfl
      · rw [if_pos ⟨hdup, hjoin⟩, hany]
        rfl
    · rw [if_neg hadd]
  simp [handleEnter, hcu]

/-- C3 witness: with duplicateItems off and an active item valued "a",
committing "a" with enter changes nothing. -/
theorem enter_duplicate_noop_witness :
    ("a" : String) ≠ ""
    ∧ "a" ∈ (getItemsFilteredByActive
        { items := [{ id := 1, value := "a", label := "a", active := true,
                      selected := false, choiceId := -1 }] }).map (fun it => it.value)
    ∧ handleEnter { duplicateItems := false } "a"
        { items := [{ id := 1, value := "a", label := "a", active := true,
                      selected := false, choiceId := -1 }] }
      = { items := [{ id := 1, value := "a", label := "a", active := true,
                      selected := false, choiceId := -1 }] } :=
  ⟨by decide, by decide,
   enter_duplicate_noop { duplicateItems := false } _ "a" rfl (by decide) (by decide)⟩

/-- C2: with addItems on and a positive maxItemCount, an enter commit on a
free-text input at or above the limit changes nothing and the key-up notice
is the limit-reached notice; and an enter commit never pushes the active
item count above the limit. -/
theorem enter_maxItemCount (cfg : Config) (s : State) (value : String)
    (htype : cfg.elementType = ElementType.text)
    (hadd : cfg.addItems = true) (hmax : 0 < cfg.maxItemCount) (hv : value ≠ "") :
    (cfg.maxItemCount ≤ ((getItemsFilteredByActive s).length : Int) →
      handleEnter cfg value s = s
      ∧ onKeyUpNotice cfg value s = DropdownNotice.limitReached cfg.maxItemCount)
    ∧ (((getItemsFilteredByActive s).length : Int) ≤ cfg.maxItemCount →
        ((getItemsFilteredByActive (handleEnter cfg value s)).length : Int)
          ≤ cfg.maxItemCount) := by
  have hne0 : cfg.maxItemCount ≠ 0 := by omega
  constructor
  · intro hle
    have hcu : enterCanUpdate cfg value s = false := by
      unfold enterCanUpdate
      dsimp only
      rw [if_pos hadd, if_pos ⟨hne0, hmax, hle⟩]
    constructor
    · simp [handleEnter, hcu]
    · unfold onKeyUpNotice
      dsimp only
      rw [if_pos hv, if_pos ⟨hne0, hmax, hle⟩]
  · intro hle
    unfold handleEnter
    split
    · next hcu =>
      split
      · have hlt : ((getItemsFilteredByActive s).length : Int) < cfg.maxItemCount := by
          by_contra hge
          push_neg at hge
          have hfalse : enterCanUpdate cfg value s = false := by
            unfold enterCanUpdate
            dsimp only
            rw [if_pos hadd, if_pos ⟨hne0, hmax, hge⟩]
          rw [hfalse] at hcu
          cases hcu
        have hlen := active_addItemMethod_not_selectOne cfg value none (-1) s
          (by rw [htype]; intro hh; cases hh)
        rw [hlen]
        push_cast
        omega
      · exact hle
    · exact hle

/-- C2 witness: maxItemCount 2 with two active items: committing "c" changes
nothing and the notice is the limit notice; the active count stays at 2. -/
theorem enter_maxItemCount_witness :
    handleEnter { maxItemCount := 2 } "c"
        { items := [{ id := 1, value := "a", label := "a", active := true,
                      selected := false, choiceId := -1 },
                    { id := 2, value := "b", label := "b", active := true,
                      selected := false, choiceId := -1 }] }
      = { items := [{ id := 1, value := "a", label := "a", active := true,
                      selected := false, choiceId := -1 },
                    { id := 2, value := "b", label := "b", active := true,
                      selected := false, choiceId := -1 }] }
    ∧ onKeyUpNotice { maxItemCount := 2 } "c"
        { items := [{ id := 1, value := "a", label := "a", active := true,
                      selected := false, choiceId := -1 },
                    { id := 2, value := "b", label := "b", active := true,
                      selected := false, choiceId := -1 }] }
      = DropdownNotice.limitReached 2 :=
  (enter_maxItemCount { maxItemCount := 2 } _ "c" rfl rfl (by decide) (by decide)).1
    (by decide)

theorem addItemMethod_items_text (cfg : Config) (v : String) (s : State)
    (htype : cfg.elementType = ElementType.text)
    (hpre : cfg.prependValue = none) (happ : cfg.appendValue = none) :
    (addItemMethod cfg v none (-1) s).items
      = s.items ++ [{ id := s.items.length + 1, value := jsTrim v, label := jsTrim v,
                      active := true, selected := false, choiceId := -1 }] := by
  unfold addItemMethod
  dsimp only
  rw [hpre, happ]
  dsimp only
  split
  · next hh =>
    rw [htype] at hh
    cases hh
  · simp [addItem, jsStringOr]

/-- C5: with the regexFilter ^[0-9]+$ configured, any value failing the
digits test is silently blocked (state unchanged); "abc" in particular adds
nothing, while "123" (with the other gates at their defaults) appends
exactly one item with value "123". -/
theorem enter_regexFilter (cfg : Config) (s : State)
    (hre : cfg.regexFilter = some regexDigits)
    (htype : cfg.elementType = ElementType.text)
    (hadd : cfg.addItems = true) (hmax : cfg.maxItemCount = -1)
    (hdup : cfg.duplicateItems = true)
    (hpre : cfg.prependValue = none) (happ : cfg.appendValue = none) :
    (∀ value : String, regexDigits value = false → handleEnter cfg value s = s)
    ∧ handleEnter cfg "abc" s = s
    ∧ (handleEnter cfg "123" s).items
        = s.items ++ [{ id := s.items.length + 1, value := "123", label := "123",
                        active := true, selected := false, choiceId := -1 }] := by
  have hmismatch : ∀ value : String, regexDigits value = false →
      handleEnter cfg value s = s := by
    intro value hf
    have hca : enterCanAddItem cfg value = false := by
      unfold enterCanAddItem
      rw [hre]
      dsimp only
      unfold regexFilterTest
      split
      · rfl
      · exact hf
    unfold handleEnter
    split
    · rw [hca]
      simp
    · rfl
  refine ⟨hmismatch, hmismatch "abc" (by decide), ?_⟩
  have hcu : enterCanUpdate cfg "123" s = true := by
    unfold enterCanUpdate
    dsimp only
    rw [if_pos hadd,
      if_neg (fun hc => by rw [hmax] at hc; exact absurd hc.2.1 (by decide)),
      if_neg (fun hc => by rw [hdup] at hc; simp at hc)]
  have hca : enterCanAddItem cfg "123" = true := by
    unfold enterCanAddItem
    rw [hre]
    dsimp only
    decide
  have hred : handleEnter cfg "123" s = addItemMethod cfg "123" none (-1) s := by
    unfold handleEnter
    rw [hcu, hca]
    simp
  rw [hred, addItemMethod_items_text cfg "123" s htype hpre happ,
    show jsTrim "123" = "123" from by decide]

/-- C5 witness: from the empty store with the digits filter, "abc" adds
nothing and "123" adds exactly the one item valued "123". -/
theorem enter_regexFilter_witness :
    handleEnter { regexFilter := some regexDigits } "abc" initialState = initialState
    ∧ (handleEnter { regexFilter := some regexDigits } "123" initialState).items
        = [{ id := 1, value := "123", label := "123", active := true,
             selected := false, choiceId := -1 }] :=
  ⟨(enter_regexFilter { regexFilter := some regexDigits } initialState
      rfl rfl rfl rfl rfl rfl rfl).2.1,
   (enter_regexFilter { regexFilter := some regexDigits } initialState
      rfl rfl rfl rfl rfl rfl rfl).2.2⟩

/-- Filtering for active entries after a batch deactivation keeps exactly
the previously active entries whose id escaped removal, unchanged. -/
theorem active_map_deactivateIds (ids : List Nat) :
    ∀ l : List Item,
      (l.map (deactivateIds ids)).filter (fun it => it.active)
        = (l.filter fun it => it.active).filter fun it => !(decide (it.id ∈ ids))
  | [] => rfl
  | a :: l => by
    by_cases h : a.id ∈ ids
    · have ha : deactivateIds ids a = { a with active := false } := by
        simp [deactivateIds, h]
      by_cases hact : a.active
      · simp [ha, h, hact, active_map_deactivateIds ids l]
      · simp [ha, h, hact, active_map_deactivateIds ids l]
    · have ha : deactivateIds ids a = a := by
        simp [deactivateIds, h]
      by_cases hact : a.active
      · simp [ha, h, hact, active_map_deactivateIds ids l]
      · simp [ha, hact, active_map_deactivateIds ids l]

theorem active_addItem (pv pl : String) (i : Nat) (poid : Int) (s : State) :
    getItemsFilteredByActive (addItem pv pl i poid s)
      = getItemsFilteredByActive s
        ++ [{ id := i, value := pv, label := pl, active := true,
              selected := false, choiceId := poid }] := by
  unfold getItemsFilteredByActive addItem
  dsimp only
  rw [List.filter_append]
  simp

/-- After a select-one add, the conditional removal pass over the snapshot of
active items leaves exactly the freshly appended item active. -/
theorem active_removeActiveItems_after_add (s : State) (hlog : IdLog s)
    (pv pl : String) (poid : Int) :
    getItemsFilteredByActive
        (removeActiveItems (s.items.length + 1)
          (addItem pv pl (s.items.length + 1) poid s))
      = [{ id := s.items.length + 1, value := pv, label := pl, active := true,
           selected := false, choiceId := poid }] := by
  have hA1 := active_addItem pv pl (s.items.length + 1) poid s
  have hfold := foldl_removeIf_items
    (fun it => it.active && (s.items.length + 1) != it.id)
    (getItemsFilteredByActive (addItem pv pl (s.items.length + 1) poid s))
    (addItem pv pl (s.items.length + 1) poid s)
  have hitems : (removeActiveItems (s.items.length + 1)
      (addItem pv pl (s.items.length + 1) poid s)).items
      = (addItem pv pl (s.items.length + 1) poid s).items.map
          (deactivateIds
            (((getItemsFilteredByActive (addItem pv pl (s.items.length + 1) poid s)).filter
                fun it => it.active && (s.items.length + 1) != it.id).map
              fun it => it.id)) := hfold
  have hRfilter : ((getItemsFilteredByActive (addItem pv pl (s.items.length + 1) poid s)).filter
      fun it => it.active && (s.items.length + 1) != it.id)
      = getItemsFilteredByActive s := by
    rw [hA1, List.filter_append]
    have h1 : ((getItemsFilteredByActive s).filter
        fun it => it.active && (s.items.length + 1) != it.id)
        = getItemsFilteredByActive s := by
      rw [List.filter_eq_self]
      intro a ha
      have hact : a.active = true := by
        have := (List.mem_filter.mp ha).2
        simpa using this
      have hmem : a ∈ s.items := List.mem_of_mem_filter ha
      have hlt := id_lt_of_mem hlog hmem
      simp [hact]
      omega
    rw [h1]
    simp
  rw [hRfilter] at hitems
  unfold getItemsFilteredByActive
  rw [hitems, active_map_deactivateIds]
  have hsitems : (addItem pv pl (s.items.length + 1) poid s).items.filter
      (fun it => it.active) = getItemsFilteredByActive (addItem pv pl (s.items.length + 1) poid s) := rfl
  rw [hsitems, hA1, List.filter_append]
  have hzero : ((getItemsFilteredByActive s).filter
      fun it => !(decide (it.id ∈ (getItemsFilteredByActive s).map fun it => it.id)))
      = [] := by
    rw [List.filter_eq_nil_iff]
    intro a ha
    have : a.id ∈ (getItemsFilteredByActive s).map fun it => it.id :=
      List.mem_map_of_mem _ ha
    simp [this]
  have hone : ([({ id := s.items.length + 1, value := pv, label := pl,
                   active := true, selected := false, choiceId := poid } : Item)].filter
      fun it => !(decide (it.id ∈ (getItemsFilteredByActive s).map fun it => it.id)))
      = [({ id := s.items.length + 1, value := pv, label := pl,
            active := true, selected := false, choiceId := poid } : Item)] := by
    have hnm : (s.items.length + 1) ∉ (getItemsFilteredByActive s).map fun it => it.id := by
      intro hmem
      obtain ⟨y, hy, hyid⟩ := List.mem_map.mp hmem
      have := id_lt_of_mem hlog (List.mem_of_mem_filter hy)
      omega
    simp [hnm]
    intro x hx
    have := id_lt_of_mem hlog (List.mem_of_mem_filter hx)
    omega
  rw [hzero, hone, List.nil_append]

/-- C4: on a select-one widget, adding an item to a reachable widget state
deactivates every previously active item: immediately afterwards exactly one
item of the log is active, the freshly added one. -/
theorem addItem_selectOne_single_active (cfg : Config) (ops : List WidgetOp)
    (v : String) (lab : Option String) (cid : Int)
    (h : cfg.elementType = ElementType.selectOne) :
    ((getItemsFilteredByActive (addItemMethod cfg v lab cid (runOps cfg ops))).map
        fun it => it.id)
      = [(runOps cfg ops).items.length + 1]
    ∧ (getItemsFilteredByActive (addItemMethod cfg v lab cid (runOps cfg ops))).length
      = 1 := by
  have hlog := IdLog_runOps cfg ops
  have hactive : getItemsFilteredByActive (addItemMethod cfg v lab cid (runOps cfg ops))
      = [{ id := (runOps cfg ops).items.length + 1,
           value := (match cfg.appendValue with
             | some a => if a = "" then
                 (match cfg.prependValue with
                   | some p => if p = "" then jsTrim v else p ++ jsTrim v
                   | none => jsTrim v)
               else
                 (match cfg.prependValue with
                   | some p => if p = "" then jsTrim v else p ++ jsTrim v
                   | none => jsTrim v) ++ a
             | none =>
               (match cfg.prependValue with
                 | some p => if p = "" then jsTrim v else p ++ jsTrim v
                 | none => jsTrim v)),
           label := jsStringOr lab (jsTrim v), active := true, selected := false,
           choiceId := if cid = 0 then -1 else cid }] := by
    unfold addItemMethod
    dsimp only
    rw [if_pos h]
    exact active_removeActiveItems_after_add (runOps cfg ops) hlog _ _ _
  rw [hactive]
  exact ⟨rfl, rfl⟩

/-- C4 witness: a select-one widget that added "x" then adds "y": exactly one
item is active afterwards, the new one with id 2. -/
theorem addItem_selectOne_witness :
    ((getItemsFilteredByActive
        (addItemMethod { elementType := ElementType.selectOne } "y" none (-1)
          (runOps { elementType := ElementType.selectOne }
            [WidgetOp.addOp "x" none (-1)]))).map fun it => it.id)
      = [2] :=
  ((addItem_selectOne_single_active { elementType := ElementType.selectOne }
      [WidgetOp.addOp "x" none (-1)] "y" none (-1) rfl).1).trans (by decide)

theorem active_removeItemDispatch (it : Item) (s : State) :
    getItemsFilteredByActive (removeItemDispatch it s)
      = (getItemsFilteredByActive s).filter fun x => !(decide (x.id = it.id)) := by
  unfold getItemsFilteredByActive
  rw [removeItemDispatch_items,
    List.map_congr_left fun a _ => deactivateItem_eq_single it.id a,
    active_map_deactivateIds]
  exact List.filter_congr fun x _ => by simp

theorem filter_ne_last {L : List Item} {x : Item}
    (hp : ((L ++ [x]).map fun it => it.id).Pairwise (· < ·)) :
    (L ++ [x]).filter (fun y => !(decide (y.id = x.id))) = L := by
  have hlt : ∀ a ∈ L, a.id < x.id := by
    intro a ha
    rw [List.map_append] at hp
    have h3 := (List.pairwise_append.mp hp).2.2
    exact h3 a.id (List.mem_map_of_mem _ ha) x.id (by simp)
  rw [List.filter_append]
  have h1 : L.filter (fun y => !(decide (y.id = x.id))) = L := by
    rw [List.filter_eq_self]
    intro a ha
    have := hlt a ha
    simp
    omega
  have h2 : [x].filter (fun y => !(decide (y.id = x.id))) = [] := by simp
  rw [h1, h2, List.append_nil]

/-- The active view after removeSelectedItems on a state with pairwise
distinct active ids: exactly the unselected active items survive,
unchanged. -/
theorem active_removeSelectedItems (s : State)
    (hp : ((getItemsFilteredByActive s).map fun it => it.id).Pairwise (· < ·)) :
    getItemsFilteredByActive (removeSelectedItems s)
      = (getItemsFilteredByActive s).filter fun it => !it.selected := by
  have hfold := foldl_removeIf_items (fun it => it.selected && it.active)
    (getItemsFilteredByActive s) s
  have hitems : (removeSelectedItems s).items
      = s.items.map (deactivateIds
          (((getItemsFilteredByActive s).filter fun it => it.selected && it.active).map
            fun it => it.id)) := hfold
  have hnd : ((getItemsFilteredByActive s).map fun it => it.id).Nodup :=
    hp.imp fun hlt => Nat.ne_of_lt hlt
  unfold getItemsFilteredByActive
  rw [hitems, active_map_deactivateIds]
  refine List.filter_congr fun x hx => ?_
  have hact : x.active = true := by
    have := (List.mem_filter.mp hx).2
    simpa using this
  cases hsel : x.selected with
  | false =>
    simp [hsel]
    intro y hy hsel2 hact2 heq
    have heq2 : y = x := List.inj_on_of_nodup_map hnd hy hx heq
    rw [heq2, hsel] at hsel2
    exact absurd hsel2 (by decide)
  | true =>
    simp [hsel]
    exact ⟨x, ⟨hx, hsel, hact⟩, rfl⟩

theorem active_selectItem (i : Nat) (sel : Bool) (s : State) :
    getItemsFilteredByActive (selectItem i sel s)
      = (getItemsFilteredByActive s).map
          fun it => if it.id = i ∧ it.active then { it with selected := sel } else it := by
  unfold getItemsFilteredByActive selectItem
  dsimp only
  rw [List.filter_map]
  congr 1
  refine List.filter_congr fun x _ => ?_
  dsimp only [Function.comp]
  split <;> rfl

/-- C6 (amended with the removeItems option, which guards the whole
backspace handler): on a widget state with removeItems enabled, backspace
with editItems on, at least one active item and none selected writes the
last active item's value back into the input and drops exactly that item
from the active view; otherwise (edit off or some item selected) nothing is
written back and all selected items are removed, the last item being
selected first when none was. -/
theorem backspace_edit_or_remove (cfg : Config) (s : State)
    (hlog : IdLog s) (hrm : cfg.removeItems = true) :
    (cfg.editItems = true →
      ((getItemsFilteredByActive s).any fun it => it.selected) = false →
      getItemsFilteredByActive s ≠ [] →
      (handleBackspace cfg s).2
          = ((getItemsFilteredByActive s).getLast?).map (fun it => it.value)
        ∧ getItemsFilteredByActive (handleBackspace cfg s).1
          = (getItemsFilteredByActive s).dropLast)
    ∧ ((cfg.editItems = false ∨
          ((getItemsFilteredByActive s).any fun it => it.selected) = true) →
        (handleBackspace cfg s).2 = none
        ∧ getItemsFilteredByActive (handleBackspace cfg s).1
          = if ((getItemsFilteredByActive s).any fun it => it.selected) = true
            then (getItemsFilteredByActive s).filter fun it => !it.selected
            else (getItemsFilteredByActive s).dropLast) := by
  constructor
  · intro hedit hnosel hne
    have hexists : ∃ last, (getItemsFilteredByActive s).getLast? = some last := by
      cases h : (getItemsFilteredByActive s).getLast? with
      | none => exact absurd (List.getLast?_eq_none_iff.mp h) hne
      | some a => exact ⟨a, rfl⟩
    obtain ⟨last, hlast⟩ := hexists
    have hred : handleBackspace cfg s = (removeItemDispatch last s, some last.value) := by
      unfold handleBackspace
      rw [if_pos hrm]
      dsimp only
      rw [hlast]
      dsimp only
      rw [if_pos ⟨hedit, hnosel⟩]
    constructor
    · rw [hred, hlast]
      rfl
    · rw [hred]
      dsimp only
      rw [active_removeItemDispatch]
      obtain ⟨L, hL⟩ := List.getLast?_eq_some_iff.mp hlast
      have hpA := pairwise_activeIds hlog
      rw [hL] at hpA ⊢
      rw [filter_ne_last hpA, List.dropLast_concat]
  · intro hBB
    cases hlastq : (getItemsFilteredByActive s).getLast? with
    | none =>
      have hAnil : getItemsFilteredByActive s = [] := List.getLast?_eq_none_iff.mp hlastq
      have hred : handleBackspace cfg s = (removeSelectedItems s, none) := by
        unfold handleBackspace
        rw [if_pos hrm]
        dsimp only
        rw [hlastq]
      constructor
      · rw [hred]
      · rw [hred]
        dsimp only
        rw [active_removeSelectedItems s (pairwise_activeIds hlog), hAnil]
        simp
    | some last =>
      have hnotcond : ¬(cfg.editItems = true
          ∧ ((getItemsFilteredByActive s).any fun it => it.selected) = false) := by
        rcases hBB with hedit | hany
        · intro hc
          rw [hedit] at hc
          exact absurd hc.1 (by decide)
        · intro hc
          rw [hany] at hc
          exact absurd hc.2 (by decide)
      rcases Bool.eq_false_or_eq_true ((getItemsFilteredByActive s).any fun it => it.selected)
        with hanyt | hanyf
      · -- some item selected: all selected items are removed
        have hred : handleBackspace cfg s = (removeSelectedItems s, none) := by
          unfold handleBackspace
          rw [if_pos hrm]
          dsimp only
          rw [hlastq]
          dsimp only
          rw [if_neg hnotcond]
          try dsimp only
          have hcondne : ¬(((getItemsFilteredByActive s).any fun it => it.selected)
              = false) := by
            rw [hanyt]
            decide
          rw [if_neg hcondne]
        refine ⟨by rw [hred], ?_⟩
        rw [hred]
        dsimp only
        rw [active_removeSelectedItems s (pairwise_activeIds hlog), if_pos hanyt]
      · -- none selected: the last item is selected first, then removed
        have hcondf : (((getItemsFilteredByActive s).any fun it => it.selected) = false) :=
          hanyf
        have hred : handleBackspace cfg s
            = (removeSelectedItems (selectItem last.id true s), none) := by
          unfold handleBackspace
          rw [if_pos hrm]
          dsimp only
          rw [hlastq]
          dsimp only
          rw [if_neg hnotcond]
          try dsimp only
          rw [if_pos hcondf]
        have hcondne : ¬(((getItemsFilteredByActive s).any fun it => it.selected) = true) := by
          rw [hanyf]
          decide
        refine ⟨by rw [hred], ?_⟩
        rw [hred]
        dsimp only
        rw [if_neg hcondne]
        have hidf : ∀ it : Item,
            ((fun it => if it.id = last.id ∧ it.active
                then { it with selected := true } else it) it).id = it.id := by
          intro it
          dsimp only
          split <;> rfl
        have hA1 := active_selectItem last.id true s
        have hp1 : ((getItemsFilteredByActive (selectItem last.id true s)).map
            fun it => it.id).Pairwise (· < ·) := by
          rw [hA1, map_id_of_preserve hidf]
          exact pairwise_activeIds hlog
        rw [active_removeSelectedItems (selectItem last.id true s) hp1, hA1,
          List.filter_map]
        have hall : ∀ x ∈ getItemsFilteredByActive s, x.selected = false := by
          intro x hx
          have := List.any_eq_false.mp hanyf x hx
          exact Bool.eq_false_iff.mpr this
        have hfilter : (getItemsFilteredByActive s).filter
            ((fun y : Item => !y.selected) ∘
              fun it => if it.id = last.id ∧ it.active
                then { it with selected := true } else it)
            = (getItemsFilteredByActive s).filter fun y => !(decide (y.id = last.id)) := by
          refine List.filter_congr fun x hx => ?_
          have hact : x.active = true := by
            have := (List.mem_filter.mp hx).2
            simpa using this
          have hsel := hall x hx
          by_cases hid : x.id = last.id
          · simp [Function.comp, hid, hact]
          · simp [Function.comp, hid, hsel]
        rw [hfilter]
        obtain ⟨L, hL⟩ := List.getLast?_eq_some_iff.mp hlastq
        have hpA := pairwise_activeIds hlog
        rw [hL] at hpA ⊢
        rw [filter_ne_last hpA, List.dropLast_concat]
        have hLlt : ∀ a ∈ L, a.id < last.id := by
          intro a ha
          rw [List.map_append] at hpA
          have h3 := (List.pairwise_append.mp hpA).2.2
          exact h3 a.id (List.mem_map_of_mem _ ha) last.id (by simp)
        have hfx : ∀ x ∈ L,
            (if x.id = last.id ∧ x.active then { x with selected := true } else x) = x := by
          intro x hx
          exact if_neg fun hc => absurd hc.1 (by have := hLlt x hx; omega)
        exact (List.map_congr_left hfx).trans (List.map_id' L)

/-- C6 witness: removeItems on (default), editItems on, one active unselected
item "foo": backspace restores "foo" into the input and leaves no active
item. -/
theorem backspace_edit_witness :
    (handleBackspace { editItems := true }
        { items := [{ id := 1, value := "foo", label := "foo", active := true,
                      selected := false, choiceId := -1 }] }).2 = some "foo"
    ∧ getItemsFilteredByActive
        (handleBackspace { editItems := true }
          { items := [{ id := 1, value := "foo", label := "foo", active := true,
                        selected := false, choiceId := -1 }] }).1 = [] := by
  have h := (backspace_edit_or_remove { editItems := true }
      { items := [{ id := 1, value := "foo", label := "foo", active := true,
                    selected := false, choiceId := -1 }] }
      (by unfold IdLog; decide) rfl).1 rfl (by decide) (by decide)
  exact ⟨h.1.trans (by decide), h.2.trans (by decide)⟩

/-- C6 counterexample to the claim as stated: with removeItems disabled (a
configuration the claim quantifies over but does not exclude) and editItems
enabled, on the reachable widget state holding one active unselected item
"foo", backspace neither writes "foo" back into the input nor removes the
item — the handler is a no-op. -/
theorem backspace_counterexample :
    runOps { removeItems := false, editItems := true }
        [WidgetOp.addOp "foo" none (-1)]
      = { items := [{ id := 1, value := "foo", label := "foo", active := true,
                      selected := false, choiceId := -1 }] }
    ∧ ({ removeItems := false, editItems := true } : Config).editItems = true
    ∧ ((getItemsFilteredByActive
          { items := [{ id := 1, value := "foo", label := "foo", active := true,
                        selected := false, choiceId := -1 }] }).any
        fun it => it.selected) = false
    ∧ (handleBackspace { removeItems := false, editItems := true }
        { items := [{ id := 1, value := "foo", label := "foo", active := true,
                      selected := false, choiceId := -1 }] }).2 = none
    ∧ getItemsFilteredByActive
        (handleBackspace { removeItems := false, editItems := true }
          { items := [{ id := 1, value := "foo", label := "foo", active := true,
                        selected := false, choiceId := -1 }] }).1
      = [{ id := 1, value := "foo", label := "foo", active := true,
           selected := false, choiceId := -1 }] := by
  exact ⟨by decide, rfl, by decide, by decide, by decide⟩

end ChoicesWidget
